import Mathlib

/-!
Shallow embedding of the poolx connection pool (Rust) for specification
checking.  The embedding follows `src/poolx/src/connection.rs` and
`src/src/sync.rs`.  Time is modelled by a natural-number clock: every
operation that reads `Instant::now()` in Rust takes the current clock value
`now : Nat` as an explicit argument.  The pool state (`PoolInner` in Rust,
shared behind an `Arc`) is threaded explicitly through the functions that
mutate it; the `Arc` pointer identity itself is modelled by an abstract
reference `PoolRef`.  Parts of the crate that live in `inner.rs` (not part
of the sources at hand) are modelled from the specification and marked as
such in their doc comments.
-/

namespace Poolx

/-- Rust `std::time::Instant`, modelled as a natural clock reading. -/
abbrev Instant := Nat

/-- Rust `std::time::Duration`, modelled as a natural number. -/
abbrev Duration := Nat

/-- Rust `Instant::saturating_duration_since`: the difference, saturating at
zero when the argument is not earlier than the receiver.  Natural-number
truncated subtraction models this exactly. -/
def saturatingDurationSince (later earlier : Instant) : Duration :=
  later - earlier

/-- `PoolConnectionMetadata`: the age and idle duration handed to user hooks. -/
structure PoolConnectionMetadata where
  age : Duration
  idle_for : Duration
deriving Repr, DecidableEq

/-- Operations of the `Connection` trait (`src/src/conn.rs`) that the pool can
invoke on a raw connection.  The embedding records the calls a code path makes
as a list of these. -/
inductive ConnOp
| close
| close_hard
| ping
deriving Repr, DecidableEq

/-- `Live<C>` from `connection.rs`: a raw connection plus its creation time. -/
structure Live (C : Type) where
  raw : C
  created_at : Instant
deriving Repr, DecidableEq

/-- `Idle<C>` from `connection.rs`: a live connection parked in the idle queue
together with the time it was parked. -/
structure Idle (C : Type) where
  live : Live C
  idle_since : Instant
deriving Repr, DecidableEq

/-- Abstract identity of an `Arc<PoolInner<C>>` pointer. -/
abbrev PoolRef := Nat

/-- `DecrementSizeGuard` from `inner.rs` (declared there; used throughout
`connection.rs`).  It holds the pool reference and a cancellation flag. -/
structure DecrementSizeGuard where
  pool : PoolRef
  cancelled : Bool
deriving Repr, DecidableEq

/-- The result kind of the user `after_release` hook:
`Result<bool, Error>` in Rust, with the error payload abstracted away. -/
abbrev HookResult := Except Unit Bool

/-- `PoolOptions`, restricted to the fields `connection.rs` reads.  The
`after_release` hook takes the raw connection by mutable reference, so it is
modelled as returning the (possibly updated) connection along with its
verdict. -/
structure PoolOptions (C : Type) where
  max_connections : Nat
  min_connections : Nat
  after_release : Option (C → PoolConnectionMetadata → C × HookResult)

/-- `PoolInner`: the shared pool state.  `size` is the atomic size counter,
`available` the semaphore's available permits, `num_idle` the atomic idle
counter, `idle_queue` the idle connection queue, `closed` the closed flag.
`connect_options` is the user connection factory (`ConnectOptions::connect`),
fallible. -/
structure PoolInner (C : Type) where
  options : PoolOptions C
  connect_options : Unit → Except Unit C
  size : Nat
  available : Nat
  num_idle : Nat
  idle_queue : List (Idle C)
  closed : Bool

/-- Modelled from the spec: `DecrementSizeGuard::new_permit` lives in
`inner.rs`, absent from the sources at hand.  Per the spec it creates a fresh
uncancelled guard for a connection whose permit was previously leaked; it does
not change the pool state. -/
def DecrementSizeGuard.new_permit (pool : PoolRef) : DecrementSizeGuard :=
  { pool := pool, cancelled := false }

/-- Modelled from the spec: `DecrementSizeGuard::from_permit` lives in
`inner.rs`, absent from the sources at hand.  It consumes (disarms) a
semaphore permit and yields an uncancelled guard. -/
def DecrementSizeGuard.from_permit (pool : PoolRef) : DecrementSizeGuard :=
  { pool := pool, cancelled := false }

/-- Modelled from the spec: `DecrementSizeGuard::cancel` lives in `inner.rs`,
absent from the sources at hand.  Cancelling suppresses the guard's eventual
decrement. -/
def DecrementSizeGuard.cancel (g : DecrementSizeGuard) : DecrementSizeGuard :=
  { g with cancelled := true }

/-- Modelled from the spec: the drop behaviour of `DecrementSizeGuard`
(`inner.rs`, absent from the sources at hand).  Spec §4.2: if cancelled, do
nothing; otherwise atomically decrement `pool.size` and release one semaphore
permit. -/
def DecrementSizeGuard.drop {C : Type} (g : DecrementSizeGuard) (p : PoolInner C) :
    PoolInner C :=
  if g.cancelled then p
  else { p with size := p.size - 1, available := p.available + 1 }

/-- `Floating<Conn, C>` from `connection.rs`: an RAII envelope pairing a
payload (a `Live` or an `Idle`) with a `DecrementSizeGuard`. -/
structure Floating (C : Type) (I : Type) where
  inner : I
  guard : DecrementSizeGuard

/-- `Live::float` (`connection.rs`): wrap a live connection in a `Floating`,
creating a new guard from a previously leaked permit. -/
def Live.float {C : Type} (l : Live C) (pool : PoolRef) : Floating C (Live C) :=
  { inner := l, guard := DecrementSizeGuard.new_permit pool }

/-- `Live::into_idle` (`connection.rs`): park a live connection, stamping
`idle_since` with the current instant. -/
def Live.into_idle {C : Type} (l : Live C) (now : Instant) : Idle C :=
  { live := l, idle_since := now }

/-- `Floating::new_live` (`connection.rs`): wrap a freshly connected raw
connection, stamping `created_at` with the current instant. -/
def Floating.new_live {C : Type} (conn : C) (guard : DecrementSizeGuard)
    (now : Instant) : Floating C (Live C) :=
  { inner := { raw := conn, created_at := now }, guard := guard }

/-- `Floating::<C, Live<C>>::metadata` (`connection.rs`): age is the elapsed
time since creation, `idle_for` is zero. -/
def Floating.metadata {C : Type} (f : Floating C (Live C)) (now : Instant) :
    PoolConnectionMetadata :=
  { age := saturatingDurationSince now f.inner.created_at
    idle_for := 0 }

/-- `Floating::<C, Idle<C>>::metadata` (`connection.rs`): both durations are
computed from a single `now` sample with `saturating_duration_since`. -/
def Floating.metadataIdle {C : Type} (f : Floating C (Idle C)) (now : Instant) :
    PoolConnectionMetadata :=
  { age := saturatingDurationSince now f.inner.live.created_at
    idle_for := saturatingDurationSince now f.inner.idle_since }

/-- `Floating::<C, Idle<C>>::from_idle` (`connection.rs`): re-float an idle
connection using a freshly acquired semaphore permit. -/
def Floating.from_idle {C : Type} (idle : Idle C) (pool : PoolRef) :
    Floating C (Idle C) :=
  { inner := idle, guard := DecrementSizeGuard.from_permit pool }

/-- `Floating::<C, Idle<C>>::into_live` (`connection.rs`). -/
def Floating.into_live {C : Type} (f : Floating C (Idle C)) :
    Floating C (Live C) :=
  { inner := f.inner.live, guard := f.guard }

/-- `Floating::<C, Live<C>>::into_idle` (`connection.rs`): the guard travels
with the payload. -/
def Floating.intoIdleAt {C : Type} (f : Floating C (Live C)) (now : Instant) :
    Floating C (Idle C) :=
  { inner := f.inner.into_idle now, guard := f.guard }

/-- Modelled from the spec: `PoolInner::release` lives in `inner.rs`, absent
from the sources at hand.  Spec §4.5 step 3: enqueue the connection as `Idle`
with `idle_since = now` and increment `num_idle`; the semaphore permit is not
released (it keeps representing this connection's slot), so `size` and the
available permits are unchanged and the floating's guard is disposed of
without effect. -/
def PoolInner.release {C : Type} (p : PoolInner C) (f : Floating C (Live C))
    (now : Instant) : PoolInner C :=
  { p with
    idle_queue := p.idle_queue ++ [f.inner.into_idle now]
    num_idle := p.num_idle + 1 }

/-- `Floating::<C, Live<C>>::close` (`connection.rs` lines 263-268): await a
graceful `Connection::close` of the raw connection; the guard is then dropped
as intended (uncancelled, so it decrements `size` and releases the permit).
Returns the resulting pool state and the connection calls made. -/
def Floating.close {C : Type} (f : Floating C (Live C)) (p : PoolInner C) :
    PoolInner C × List ConnOp :=
  (f.guard.drop p, [ConnOp.close])

/-- `Floating::<C, Live<C>>::close_hard` (`connection.rs` lines 270-272):
await `Connection::close_hard`; the guard drops likewise. -/
def Floating.close_hard {C : Type} (f : Floating C (Live C)) (p : PoolInner C) :
    PoolInner C × List ConnOp :=
  (f.guard.drop p, [ConnOp.close_hard])

/-- `Floating::release` (`connection.rs` lines 208-210): hand the floating
connection to `PoolInner::release`. -/
def Floating.release {C : Type} (f : Floating C (Live C)) (p : PoolInner C)
    (now : Instant) : PoolInner C :=
  p.release f now

/-- Outcome of `Floating::return_to_pool`: the boolean the function returns,
the pool state afterwards, and the `Connection` trait methods it invoked on
the raw connection. -/
structure ReturnResult (C : Type) where
  returned : Bool
  pool : PoolInner C
  ops : List ConnOp

/-- `Floating::<C, Live<C>>::return_to_pool` (`connection.rs` lines 215-261).
If the pool is closed, immediately close (gracefully) and report `false`.
Otherwise run the `after_release` hook when configured: `Ok(true)` keeps the
connection, `Ok(false)` closes it gracefully, `Err` closes it hard.  The
on-release ping in the source is commented out; the surviving path releases
the connection into the idle queue and reports `true`. -/
def Floating.return_to_pool {C : Type} (f : Floating C (Live C))
    (p : PoolInner C) (now : Instant) : ReturnResult C :=
  if p.closed then
    let r := f.close p
    { returned := false, pool := r.1, ops := r.2 }
  else
    match p.options.after_release with
    | some test =>
      let meta := f.metadata now
      match test f.inner.raw meta with
      | (raw1, Except.ok true) =>
        let f1 : Floating C (Live C) :=
          { f with inner := { f.inner with raw := raw1 } }
        { returned := true, pool := f1.release p now, ops := [] }
      | (_, Except.ok false) =>
        let r := f.close p
        { returned := false, pool := r.1, ops := r.2 }
      | (_, Except.error _) =>
        let r := f.close_hard p
        { returned := false, pool := r.1, ops := r.2 }
    | none =>
      { returned := true, pool := f.release p now, ops := [] }

/-- `Floating::detach` (`connection.rs` lines 274-276): extract the raw
connection; the guard is dropped (uncancelled). -/
def Floating.detach {C : Type} (f : Floating C (Live C)) (p : PoolInner C) :
    C × PoolInner C :=
  (f.inner.raw, f.guard.drop p)

/-- `PoolConnection<C>` (`connection.rs`): the user-facing checkout handle. -/
structure PoolConnection (C : Type) where
  live : Option (Live C)
  pool : PoolRef

/-- `Floating::reattach` (`connection.rs` lines 196-206): cancel the guard and
build a `PoolConnection` holding the same `Live` and the same pool reference.
Returns the checkout together with the cancelled guard. -/
def Floating.reattach {C : Type} (f : Floating C (Live C)) :
    PoolConnection C × DecrementSizeGuard :=
  ({ live := some f.inner, pool := f.guard.pool }, f.guard.cancel)

/-- `PoolConnection::leak` (`connection.rs` lines 107-109): take the `Live`
out of the handle and return its raw connection.  No `Floating` and no guard
are created and the pool state is untouched.  The count of guards the call
creates is recorded alongside. -/
def PoolConnection.leak {C : Type} (pc : PoolConnection C) (p : PoolInner C) :
    Option C × PoolInner C × Nat :=
  (pc.live.map Live.raw, p, 0)

/-- `PoolConnection::detach` (`connection.rs` lines 98-100): float the live
connection (creating one guard) and detach it; the guard drop releases the
size count and the permit. -/
def PoolConnection.detach {C : Type} (pc : PoolConnection C) (p : PoolInner C) :
    Option C × PoolInner C × Nat :=
  match pc.live with
  | none => (none, p, 0)
  | some l =>
    let d := (l.float pc.pool).detach p
    (some d.1, d.2, 1)

/-- Modelled from the spec: `PoolInner::min_connections_maintenance` lives in
`inner.rs`, absent from the sources at hand.  Spec §4.6 step 2 (top-up):
while `size < min_connections` and the pool is not closed, consume a permit,
construct a connection, and enqueue it as `Idle`; stop early on construction
failure.  The loop is bounded by `min_connections`. -/
def topUpSteps {C : Type} (now : Instant) :
    Nat → PoolInner C → PoolInner C
  | 0, p => p
  | Nat.succ n, p =>
    if p.closed ∨ p.options.min_connections ≤ p.size ∨ p.available = 0 then p
    else
      match p.connect_options () with
      | Except.error _ => p
      | Except.ok c =>
        topUpSteps now n
          { p with
            size := p.size + 1
            available := p.available - 1
            num_idle := p.num_idle + 1
            idle_queue := p.idle_queue ++ [⟨⟨c, now⟩, now⟩] }

/-- Modelled from the spec: see `topUpSteps`. -/
def PoolInner.min_connections_maintenance {C : Type} (p : PoolInner C)
    (now : Instant) : PoolInner C :=
  topUpSteps now p.options.min_connections p

/-- Outcome of the detached task built by `PoolConnection::return_to_pool`. -/
structure DropTaskResult (C : Type) where
  returned : Bool
  pool : PoolInner C
  ops : List ConnOp
  ranMaintenance : Bool

/-- `PoolConnection::return_to_pool` (`connection.rs` lines 119-140): float
the held `Live` (if any) before the task runs; inside the task, return it to
the pool; when nothing was returned (no live connection, or the return closed
it), run `min_connections_maintenance`. -/
def PoolConnection.return_to_pool {C : Type} (pc : PoolConnection C)
    (p : PoolInner C) (now : Instant) : DropTaskResult C :=
  let floating := pc.live.map fun l => l.float pc.pool
  match floating with
  | some f =>
    let r := f.return_to_pool p now
    if r.returned then
      { returned := true, pool := r.pool, ops := r.ops, ranMaintenance := false }
    else
      { returned := false
        pool := r.pool.min_connections_maintenance now
        ops := r.ops
        ranMaintenance := true }
  | none =>
    { returned := false
      pool := p.min_connections_maintenance now
      ops := []
      ranMaintenance := true }

/-- The guard of `impl Drop for PoolConnection` (`connection.rs` lines
145-152): a detached return task is spawned iff the handle still holds its
live connection or `min_connections > 0`. -/
def PoolConnection.dropSpawns {C : Type} (pc : PoolConnection C)
    (p : PoolInner C) : Bool :=
  pc.live.isSome || decide (0 < p.options.min_connections)

/-- Model of `tokio::sync::Semaphore` (the external dependency wrapped by
`src/src/sync.rs`): an available-permit count plus a FIFO queue of suspended
waiters, each recorded as an identifier together with the number of permits
it requested.  Tokio's semaphore serves its waiter queue strictly in order:
a release wakes waiters from the front while their requests fit. -/
structure TokioSemaphore where
  permits : Nat
  waiters : List (Nat × Nat)
deriving Repr, DecidableEq

/-- `tokio::sync::Semaphore::new`. -/
def TokioSemaphore.new (permits : Nat) : TokioSemaphore :=
  { permits := permits, waiters := [] }

/-- The FIFO wakeup sweep of the tokio semaphore: walk the waiter queue from
the front, waking each waiter whose request fits the remaining permits, and
stop at the first waiter whose request does not fit.  Returns the identifiers
woken (in order), the permits left, and the remaining queue. -/
def wakeSweep : Nat → List (Nat × Nat) → List Nat × Nat × List (Nat × Nat)
  | avail, [] => ([], avail, [])
  | avail, (i, need) :: rest =>
    if need ≤ avail then
      let r := wakeSweep (avail - need) rest
      (i :: r.1, r.2.1, r.2.2)
    else
      ([], avail, (i, need) :: rest)

/-- `tokio::sync::Semaphore::add_permits`: add permits and wake waiters in
FIFO order.  Returns the identifiers of the waiters woken. -/
def TokioSemaphore.add_permits (s : TokioSemaphore) (n : Nat) :
    List Nat × TokioSemaphore :=
  let r := wakeSweep (s.permits + n) s.waiters
  (r.1, { permits := r.2.1, waiters := r.2.2 })

/-- `AsyncSemaphore` from `src/src/sync.rs`: a thin wrapper around the tokio
semaphore. -/
structure AsyncSemaphore where
  inner : TokioSemaphore
deriving Repr, DecidableEq

/-- `AsyncSemaphore::new` (`src/src/sync.rs` lines 18-24).  The body
constructs `tokio::sync::Semaphore::new(permits)`; the `fair` parameter is
not read. -/
def AsyncSemaphore.new (fair : Bool) (permits : Nat) : AsyncSemaphore :=
  { inner := TokioSemaphore.new permits }

/-- `AsyncSemaphore::permits` (`src/src/sync.rs`). -/
def AsyncSemaphore.availablePermits (s : AsyncSemaphore) : Nat :=
  s.inner.permits

/-- `AsyncSemaphore::release` (`src/src/sync.rs`): forwards to
`add_permits`. -/
def AsyncSemaphore.release (s : AsyncSemaphore) (permits : Nat) :
    List Nat × AsyncSemaphore :=
  let r := s.inner.add_permits permits
  (r.1, { inner := r.2 })

/-- Modelled from the spec: the size/permit accounting of the pool protocol.
The protocol itself (`PoolInner::acquire`, `release`, `close` in `inner.rs`
and `pool.rs`) is absent from the sources at hand; this state machine follows
spec §4.4-§4.7, abstracted to the counters the invariant speaks about:
`size`, the semaphore's `available` permits, `num_idle`, and the `closed`
flag.  Per spec §4.4 step 3a and §4.5 step 3, an idle connection keeps its
permit consumed while parked. -/
structure AccState where
  max_connections : Nat
  min_connections : Nat
  size : Nat
  available : Nat
  num_idle : Nat
  closed : Bool
deriving Repr, DecidableEq

/-- The stable-point operations of the pool protocol (spec §4.4-§4.7). -/
inductive PoolOp
| acquireIdle
| acquireConstruct
| acquireConstructFail
| releaseKeep
| releaseDiscard
| reap
| topUpOne
| closePool
deriving Repr, DecidableEq

/-- Modelled from the spec: one stable-point transition of the pool protocol.
Operations whose precondition does not hold leave the state unchanged.
`acquireIdle` (§4.4 3a) pops an idle entry, whose consumed permit now backs
the checkout.  `acquireConstruct` (§4.4 3b-c) consumes a permit and
increments `size`; the guard is cancelled at reattach.  `acquireConstructFail`
(§4.4 3d) does the same and then drops the floating, whose guard reverts
both.  `releaseKeep` (§4.5 3) parks a checkout as idle without releasing its
permit.  `releaseDiscard` (§4.5 1-2) closes a checkout, its guard releasing
size and permit.  `reap` (§4.6 1) evicts one idle entry, releasing size and
permit.  `topUpOne` (§4.6 2) constructs one idle connection below the floor.
`closePool` (§4.7) sets the closed flag and drains the idle queue, each
eviction releasing size and permit. -/
def accStep (s : AccState) : PoolOp → AccState
  | PoolOp.acquireIdle =>
    if s.closed = false ∧ 0 < s.num_idle then
      { s with num_idle := s.num_idle - 1 }
    else s
  | PoolOp.acquireConstruct =>
    if s.closed = false ∧ 0 < s.available then
      { s with size := s.size + 1, available := s.available - 1 }
    else s
  | PoolOp.acquireConstructFail =>
    if s.closed = false ∧ 0 < s.available then
      let pending := { s with size := s.size + 1, available := s.available - 1 }
      { pending with size := pending.size - 1, available := pending.available + 1 }
    else s
  | PoolOp.releaseKeep =>
    if s.closed = false ∧ s.num_idle < s.size then
      { s with num_idle := s.num_idle + 1 }
    else s
  | PoolOp.releaseDiscard =>
    if s.num_idle < s.size then
      { s with size := s.size - 1, available := s.available + 1 }
    else s
  | PoolOp.reap =>
    if 0 < s.num_idle then
      { s with num_idle := s.num_idle - 1, size := s.size - 1,
               available := s.available + 1 }
    else s
  | PoolOp.topUpOne =>
    if s.closed = false ∧ s.size < s.min_connections ∧ 0 < s.available then
      { s with size := s.size + 1, available := s.available - 1,
               num_idle := s.num_idle + 1 }
    else s
  | PoolOp.closePool =>
    { s with closed := true, size := s.size - s.num_idle,
             available := s.available + s.num_idle, num_idle := 0 }

/-- Run a sequence of protocol operations. -/
def accRun (s : AccState) : List PoolOp → AccState
  | [] => s
  | op :: ops => accRun (accStep s op) ops

/-- The freshly constructed pool: no connections, all permits available. -/
def AccState.init (maxc minc : Nat) : AccState :=
  { max_connections := maxc, min_connections := minc, size := 0,
    available := maxc, num_idle := 0, closed := false }

/-- The accounting invariant: consumed permits equal `size` (stated as a sum
to avoid truncation), and idle entries never outnumber pooled connections. -/
def AccInv (s : AccState) : Prop :=
  s.size + s.available = s.max_connections ∧ s.num_idle ≤ s.size

/-- A trivial always-succeeding connection factory over the unit connection
type, used to build concrete pool states. -/
def unitConnect : Unit → Except Unit Unit := fun _ => Except.ok ()

/-- A concrete open pool over the unit connection type. -/
def openPool : PoolInner Unit :=
  { options := { max_connections := 10, min_connections := 0, after_release := none }
    connect_options := unitConnect
    size := 3
    available := 7
    num_idle := 1
    idle_queue := [⟨⟨(), 0⟩, 0⟩]
    closed := false }

/-- The same pool with the closed flag set. -/
def closedPool : PoolInner Unit :=
  { openPool with closed := true }

/-- A concrete open pool whose `after_release` hook always answers
`Ok(false)` (discard). -/
def discardHookPool : PoolInner Unit :=
  { openPool with
    options := { openPool.options with
                 after_release := some fun c _ => (c, Except.ok false) } }

/-- A concrete open pool with a nonzero `min_connections` floor. -/
def minPool : PoolInner Unit :=
  { openPool with
    options := { openPool.options with min_connections := 2 } }

/-- A concrete floating live unit connection with an uncancelled guard. -/
def sampleFloating : Floating Unit (Live Unit) :=
  { inner := { raw := (), created_at := 1 }
    guard := { pool := 0, cancelled := false } }

/-- A concrete checkout handle whose connection was already extracted. -/
def emptyConn : PoolConnection Unit :=
  { live := none, pool := 0 }

/-- A concrete checkout handle still holding its live connection. -/
def fullConn : PoolConnection Unit :=
  { live := some { raw := (), created_at := 2 }, pool := 0 }

/-- A concrete idle floating whose timestamps lie in the future relative to
the clock value 4. -/
def futureIdleFloating : Floating Unit (Idle Unit) :=
  { inner := { live := { raw := (), created_at := 9 }, idle_since := 10 }
    guard := { pool := 0, cancelled := false } }

/-- A concrete semaphore with three queued waiters. -/
def waitingSemaphore : AsyncSemaphore :=
  { inner := { permits := 0, waiters := [(1, 1), (2, 2), (3, 1)] } }

lemma accStep_max (s : AccState) (op : PoolOp) :
    (accStep s op).max_connections = s.max_connections := by
  cases op <;> simp only [accStep] <;> (try split) <;> rfl

lemma accStep_inv (s : AccState) (op : PoolOp) (h : AccInv s) :
    AccInv (accStep s op) := by
  obtain ⟨h1, h2⟩ := h
  cases op <;> simp only [accStep, AccInv] <;> (try split) <;>
    (try dsimp only) <;> omega

lemma accRun_inv (s : AccState) (ops : List PoolOp) (h : AccInv s) :
    AccInv (accRun s ops) := by
  induction ops generalizing s with
  | nil => exact h
  | cons op ops ih => exact ih _ (accStep_inv s op h)

lemma accRun_max (s : AccState) (ops : List PoolOp) :
    (accRun s ops).max_connections = s.max_connections := by
  induction ops generalizing s with
  | nil => rfl
  | cons op ops ih => rw [accRun, ih, accStep_max]

lemma wakeSweep_fifo (avail : Nat) (ws : List (Nat × Nat)) :
    ∃ k, (wakeSweep avail ws).1 = (ws.map Prod.fst).take k ∧
      (wakeSweep avail ws).2.2 = ws.drop k := by
  induction ws generalizing avail with
  | nil => exact ⟨0, rfl, rfl⟩
  | cons w rest ih =>
    obtain ⟨i, need⟩ := w
    by_cases hle : need ≤ avail
    · obtain ⟨k, hk1, hk2⟩ := ih (avail - need)
      refine ⟨k + 1, ?_, ?_⟩
      · simp [wakeSweep, hle, hk1]
      · simp [wakeSweep, hle, hk2]
    · exact ⟨0, by simp [wakeSweep, hle], by simp [wakeSweep, hle]⟩

/-- Claim C1 counterexample: on a pool whose closed flag is set,
`Floating::return_to_pool` closes the connection with the graceful
`Connection::close`, not with `close_hard` as the claim states. -/
theorem c1_counterexample :
    closedPool.closed = true ∧
    (sampleFloating.return_to_pool closedPool 5).returned = false ∧
    (sampleFloating.return_to_pool closedPool 5).ops = [ConnOp.close] ∧
    ConnOp.close_hard ∉ (sampleFloating.return_to_pool closedPool 5).ops := by
  refine ⟨rfl, rfl, rfl, ?_⟩
  decide

/-- Claim C1 (amended): for every checked-out connection whose return runs
while the pool is closed, the connection is closed gracefully via
`Connection::close`, the guard releases the size count and the permit, the
connection is not enqueued as idle, and `return_to_pool` reports `false`. -/
theorem c1_theorem {C : Type} (f : Floating C (Live C)) (p : PoolInner C)
    (now : Instant) (hclosed : p.closed = true)
    (hg : f.guard.cancelled = false) :
    (f.return_to_pool p now).returned = false ∧
    (f.return_to_pool p now).ops = [ConnOp.close] ∧
    (f.return_to_pool p now).pool.size = p.size - 1 ∧
    (f.return_to_pool p now).pool.available = p.available + 1 ∧
    (f.return_to_pool p now).pool.idle_queue = p.idle_queue ∧
    (f.return_to_pool p now).pool.num_idle = p.num_idle := by
  simp [Floating.return_to_pool, Floating.close, DecrementSizeGuard.drop,
    hclosed, hg]

/-- Claim C1 witness: the amended statement evaluated on a concrete closed
pool. -/
theorem c1_witness :
    (sampleFloating.return_to_pool closedPool 6).pool.size =
        closedPool.size - 1 ∧
    (sampleFloating.return_to_pool closedPool 6).pool.available =
        closedPool.available + 1 ∧
    (sampleFloating.return_to_pool closedPool 6).pool.num_idle =
        closedPool.num_idle := by
  have h := c1_theorem sampleFloating closedPool 6 rfl rfl
  exact ⟨h.2.2.1, h.2.2.2.1, h.2.2.2.2.2⟩

/-- Claim C2: in every state reachable from the initial pool state by any
interleaving of the protocol operations, `max_connections` minus the
semaphore's available permits equals the pool's `size` counter. -/
theorem c2_theorem (maxc minc : Nat) (ops : List PoolOp) :
    maxc - (accRun (AccState.init maxc minc) ops).available =
      (accRun (AccState.init maxc minc) ops).size := by
  have hinv := accRun_inv (AccState.init maxc minc) ops
    ⟨by simp [AccState.init], by simp [AccState.init]⟩
  have hmax : (accRun (AccState.init maxc minc) ops).max_connections = maxc := by
    rw [accRun_max]
    rfl
  obtain ⟨h1, _⟩ := hinv
  omega

/-- Claim C6: `Floating::reattach` cancels the guard and yields a checkout
holding the same `Live` and the same pool reference; dropping the cancelled
guard leaves the pool state (in particular `size` and the available permits)
unchanged. -/
theorem c6_theorem {C : Type} (f : Floating C (Live C)) (p : PoolInner C) :
    (f.reattach).1.live = some f.inner ∧
    (f.reattach).1.pool = f.guard.pool ∧
    (f.reattach).2.cancelled = true ∧
    (f.reattach).2.drop p = p ∧
    ((f.reattach).2.drop p).size = p.size ∧
    ((f.reattach).2.drop p).available = p.available := by
  refine ⟨rfl, rfl, rfl, rfl, rfl, rfl⟩

/-- Claim C9: `Floating::new_live` stamps `created_at` with the clock at
construction, `Live::into_idle` stamps `idle_since` with the clock at
conversion; whenever the conversion does not precede the construction the
resulting idle entry satisfies `created_at ≤ idle_since`, strictly when the
conversion happens strictly later. -/
theorem c9_theorem {C : Type} (raw : C) (g : DecrementSizeGuard)
    (t0 t1 : Instant) :
    (Floating.new_live raw g t0).inner.created_at = t0 ∧
    ((Floating.new_live raw g t0).inner.into_idle t1).idle_since = t1 ∧
    (t0 ≤ t1 →
      ((Floating.new_live raw g t0).inner.into_idle t1).live.created_at ≤
        ((Floating.new_live raw g t0).inner.into_idle t1).idle_since) ∧
    (t0 < t1 →
      ((Floating.new_live raw g t0).inner.into_idle t1).live.created_at <
        ((Floating.new_live raw g t0).inner.into_idle t1).idle_since) := by
  exact ⟨rfl, rfl, fun h => h, fun h => h⟩

/-- Claim C9 witness: the statement evaluated at concrete clock values. -/
theorem c9_witness :
    ((Floating.new_live () ⟨0, false⟩ 1).inner.into_idle 3).live.created_at <
      ((Floating.new_live () ⟨0, false⟩ 1).inner.into_idle 3).idle_since := by
  exact (c9_theorem () ⟨0, false⟩ 1 3).2.2.2 (by decide)

/-- Claim C10: `Floating::<C, Idle<C>>::metadata` computes both durations
from one `now` sample with `saturating_duration_since`; the results are total
natural durations, and each is zero whenever the corresponding stored
timestamp is not earlier than `now`. -/
theorem c10_theorem {C : Type} (f : Floating C (Idle C)) (now : Instant) :
    f.metadataIdle now =
      { age := saturatingDurationSince now f.inner.live.created_at
        idle_for := saturatingDurationSince now f.inner.idle_since } ∧
    (now ≤ f.inner.live.created_at → (f.metadataIdle now).age = 0) ∧
    (now ≤ f.inner.idle_since → (f.metadataIdle now).idle_for = 0) := by
  exact ⟨rfl, fun h => Nat.sub_eq_zero_of_le h, fun h => Nat.sub_eq_zero_of_le h⟩

/-- Claim C10 witness: metadata of an idle entry whose timestamps lie in the
future yields zero durations rather than underflowing. -/
theorem c10_witness :
    (futureIdleFloating.metadataIdle 4).age = 0 ∧
    (futureIdleFloating.metadataIdle 4).idle_for = 0 := by
  exact ⟨(c10_theorem futureIdleFloating 4).2.1 (by decide),
    (c10_theorem futureIdleFloating 4).2.2 (by decide)⟩

/-- Claim C3: returning a connection to an open pool with an `after_release`
hook configured: `Ok(true)` lets the return proceed into the idle queue;
`Ok(false)` closes the connection gracefully without enqueueing it, the guard
releasing size and permit; `Err` closes it hard without enqueueing it, the
guard releasing size and permit. -/
theorem c3_theorem {C : Type} (f : Floating C (Live C)) (p : PoolInner C)
    (now : Instant) (test : C → PoolConnectionMetadata → C × HookResult)
    (hopen : p.closed = false)
    (hconf : p.options.after_release = some test)
    (hg : f.guard.cancelled = false) :
    (∀ raw1, test f.inner.raw (f.metadata now) = (raw1, Except.ok true) →
      (f.return_to_pool p now).returned = true ∧
      (f.return_to_pool p now).ops = [] ∧
      (f.return_to_pool p now).pool.num_idle = p.num_idle + 1 ∧
      (f.return_to_pool p now).pool.idle_queue =
        p.idle_queue ++ [Live.into_idle ⟨raw1, f.inner.created_at⟩ now] ∧
      (f.return_to_pool p now).pool.size = p.size ∧
      (f.return_to_pool p now).pool.available = p.available) ∧
    (∀ raw1, test f.inner.raw (f.metadata now) = (raw1, Except.ok false) →
      (f.return_to_pool p now).returned = false ∧
      (f.return_to_pool p now).ops = [ConnOp.close] ∧
      (f.return_to_pool p now).pool.size = p.size - 1 ∧
      (f.return_to_pool p now).pool.available = p.available + 1 ∧
      (f.return_to_pool p now).pool.idle_queue = p.idle_queue) ∧
    (∀ raw1 e, test f.inner.raw (f.metadata now) = (raw1, Except.error e) →
      (f.return_to_pool p now).returned = false ∧
      (f.return_to_pool p now).ops = [ConnOp.close_hard] ∧
      (f.return_to_pool p now).pool.size = p.size - 1 ∧
      (f.return_to_pool p now).pool.available = p.available + 1 ∧
      (f.return_to_pool p now).pool.idle_queue = p.idle_queue) := by
  refine ⟨fun raw1 h => ?_, fun raw1 h => ?_, fun raw1 e h => ?_⟩ <;>
    simp [Floating.return_to_pool, Floating.close, Floating.close_hard,
      Floating.release, PoolInner.release, Live.into_idle,
      DecrementSizeGuard.drop, hopen, hconf, hg, h]

/-- Claim C3 witness: the `Ok(false)` (discard) branch evaluated on a
concrete pool whose hook always discards. -/
theorem c3_witness :
    (sampleFloating.return_to_pool discardHookPool 5).returned = false ∧
    (sampleFloating.return_to_pool discardHookPool 5).ops = [ConnOp.close] ∧
    (sampleFloating.return_to_pool discardHookPool 5).pool.size =
      discardHookPool.size - 1 ∧
    (sampleFloating.return_to_pool discardHookPool 5).pool.available =
      discardHookPool.available + 1 := by
  have h := (c3_theorem sampleFloating discardHookPool 5
    (fun c _ => (c, Except.ok false)) rfl rfl rfl).2.1 () rfl
  exact ⟨h.1, h.2.1, h.2.2.1, h.2.2.2.1⟩

/-- Claim C4: the release path never pings.  `Floating::return_to_pool`
invokes no `Connection::ping` on any path (the on-release ping is commented
out in the source); when the pool is open and the hook is absent or answers
`Ok(true)`, the connection is released into the idle queue. -/
theorem c4_theorem {C : Type} (f : Floating C (Live C)) (p : PoolInner C)
    (now : Instant) :
    ConnOp.ping ∉ (f.return_to_pool p now).ops ∧
    (p.closed = false →
      (p.options.after_release = none ∨
        ∃ test raw1, p.options.after_release = some test ∧
          test f.inner.raw (f.metadata now) = (raw1, Except.ok true)) →
      (f.return_to_pool p now).returned = true ∧
      (f.return_to_pool p now).ops = [] ∧
      (f.return_to_pool p now).pool.num_idle = p.num_idle + 1) := by
  constructor
  · by_cases hclosed : p.closed = true
    · simp [Floating.return_to_pool, Floating.close, hclosed]
    · simp only [Bool.not_eq_true] at hclosed
      cases hconf : p.options.after_release with
      | none =>
        simp [Floating.return_to_pool, hclosed, hconf]
      | some test =>
        rcases htest : test f.inner.raw (f.metadata now) with ⟨raw1, res⟩
        cases res with
        | ok b =>
          cases b <;>
            simp [Floating.return_to_pool, Floating.close, hclosed, hconf,
              htest]
        | error e =>
          simp [Floating.return_to_pool, Floating.close_hard, hclosed, hconf,
            htest]
  · intro hopen hkeep
    rcases hkeep with hnone | ⟨test, raw1, hconf, htest⟩
    · simp [Floating.return_to_pool, Floating.release, PoolInner.release,
        hopen, hnone]
    · simp [Floating.return_to_pool, Floating.release, PoolInner.release,
        hopen, hconf, htest]

/-- Claim C4 witness: a return to a concrete open pool without a hook
enqueues the connection and performs no ping. -/
theorem c4_witness :
    ConnOp.ping ∉ (sampleFloating.return_to_pool openPool 5).ops ∧
    (sampleFloating.return_to_pool openPool 5).returned = true ∧
    (sampleFloating.return_to_pool openPool 5).pool.num_idle =
      openPool.num_idle + 1 := by
  have h := c4_theorem sampleFloating openPool 5
  exact ⟨h.1, (h.2 rfl (Or.inl rfl)).1, (h.2 rfl (Or.inl rfl)).2.2⟩

/-- Claim C5: dropping a `PoolConnection` spawns the detached return task iff
it still holds its `Live` or `min_connections > 0`; when the connection was
already extracted (`live` absent), the task runs
`min_connections_maintenance` instead of returning a connection. -/
theorem c5_theorem {C : Type} (pc : PoolConnection C) (p : PoolInner C)
    (now : Instant) :
    (pc.dropSpawns p = true ↔
      (pc.live.isSome = true ∨ 0 < p.options.min_connections)) ∧
    (pc.live = none →
      (pc.return_to_pool p now).ranMaintenance = true ∧
      (pc.return_to_pool p now).returned = false ∧
      (pc.return_to_pool p now).ops = [] ∧
      (pc.return_to_pool p now).pool = p.min_connections_maintenance now) := by
  constructor
  · simp [PoolConnection.dropSpawns]
  · intro hnone
    simp [PoolConnection.return_to_pool, hnone]

/-- Claim C5 witness: an extracted handle over a pool with
`min_connections = 2` spawns a task that runs the maintenance path. -/
theorem c5_witness :
    emptyConn.dropSpawns minPool = true ∧
    (emptyConn.return_to_pool minPool 7).ranMaintenance = true ∧
    (emptyConn.return_to_pool minPool 7).returned = false := by
  have h := c5_theorem emptyConn minPool 7
  exact ⟨h.1.mpr (Or.inr (by decide)), (h.2 rfl).1, (h.2 rfl).2.1⟩

/-- Claim C7 counterexample: `AsyncSemaphore::new` does not read its `fair`
parameter; the semaphores constructed with `fair = true` and `fair = false`
are identical, so the constructed semaphore's behaviour does not depend on
the `fair` argument and `fair = false` does not yield an unfair semaphore. -/
theorem c7_counterexample :
    AsyncSemaphore.new true 1 = AsyncSemaphore.new false 1 := by
  rfl

/-- Claim C7 (amended): `AsyncSemaphore::new(fair, permits)` ignores the
`fair` flag — every value of `fair` yields the same underlying tokio
semaphore, which wakes suspended waiters in FIFO order: a release wakes a
prefix of the waiter queue and leaves the corresponding suffix waiting. -/
theorem c7_theorem (fair fair2 : Bool) (permits n : Nat)
    (s : AsyncSemaphore) :
    AsyncSemaphore.new fair permits = AsyncSemaphore.new fair2 permits ∧
    (AsyncSemaphore.new fair permits).inner.permits = permits ∧
    (AsyncSemaphore.new fair permits).inner.waiters = [] ∧
    ∃ k, (s.release n).1 = (s.inner.waiters.map Prod.fst).take k ∧
      (s.release n).2.inner.waiters = s.inner.waiters.drop k := by
  refine ⟨rfl, rfl, rfl, ?_⟩
  obtain ⟨k, hk1, hk2⟩ := wakeSweep_fifo (s.inner.permits + n) s.inner.waiters
  exact ⟨k, hk1, hk2⟩

/-- Claim C8: `PoolConnection::leak` returns the raw connection, creates no
guard, and leaves the pool state — in particular `size` and the available
permits — untouched. -/
theorem c8_theorem {C : Type} (pc : PoolConnection C) (p : PoolInner C)
    (l : Live C) (h : pc.live = some l) :
    (pc.leak p).1 = some l.raw ∧
    (pc.leak p).2.1 = p ∧
    (pc.leak p).2.1.size = p.size ∧
    (pc.leak p).2.1.available = p.available ∧
    (pc.leak p).2.2 = 0 := by
  simp [PoolConnection.leak, h]

/-- Claim C8 witness: leaking a concrete checkout leaves the concrete pool
state unchanged. -/
theorem c8_witness :
    (fullConn.leak openPool).1 = some () ∧
    (fullConn.leak openPool).2.1 = openPool ∧
    (fullConn.leak openPool).2.2 = 0 := by
  have h := c8_theorem fullConn openPool { raw := (), created_at := 2 } rfl
  exact ⟨h.1, h.2.1, h.2.2.2.2⟩

end Poolx
